import Mathlib

/-!
A verification development for the point-to-point voice-call appliance
(`src/main.rs`, `src/network_thread.rs`, `src/input_audio_task.rs`,
`src/output_audio_task.rs`, `src/terminal_task.rs`, `src/events.rs`,
`src/utils.rs`).

The Rust tasks are shallowly embedded as pure Lean step functions:
machine integers become `Nat`/`Int` with explicit `% 2^w` where wrap
matters, fallible or panicking code returns `Option` (with `none`
standing for a Rust panic), and each task's mutable loop state becomes
an explicit state value threaded through the step function.  Channel
sends and UDP sends become elements of an output list, in the order the
source emits them.
-/

/-- An `(IP, UDP port)` pair, modelling `std::net::SocketAddr`.  IP
addresses are abstracted to `Nat`; only equality of addresses matters to
the program. -/
structure SockAddr where
  ip : Nat
  port : Nat
deriving DecidableEq, Repr

/-- `terminal_task.rs` lines 88-99: the command union carried by the UI
task's inbound channel (`CallScreenCommand`). -/
inductive CallScreenCommand where
  | startCall (sock : SockAddr)
  | incomingCall (sock : SockAddr)
  | stopCall
  | endCall
  | acceptCall
  | rejectCall
  | increaseVolume
  | decreaseVolume
  | toggleMute
  | exit
deriving DecidableEq, Repr

/-- `output_audio_task.rs` lines 5-11: commands for the Playback task.
PCM samples (`Vec<i16>`) are embedded as `List Int`. -/
inductive OutputAudioTaskCommand where
  | play (samples : List Int)
  | stop
  | setVolume (v : Int)
  | setMute (b : Bool)
  | exit
deriving DecidableEq, Repr

/-- `input_audio_task.rs` lines 11-15: commands for the Capture task. -/
inductive InputAudioCommand where
  | start
  | stop
  | exit
deriving DecidableEq, Repr

/-- `network_thread.rs` lines 10-18: commands for the Network task.  The
`MainTaskQueue`/`OutputAudioQueue` variants carry channel handles in the
source; handles are opaque to the protocol logic so the payload is
dropped here. -/
inductive NetworkTaskCommand where
  | startConnection (addr : SockAddr)
  | stopConnection
  | sendAccept
  | sendAudio (samples : List Int)
  | mainTaskQueue
  | outputAudioQueue
  | exit
deriving DecidableEq, Repr

/-- `network_thread.rs` lines 20-25: the protocol state (`NetworkState`). -/
inductive NetworkState where
  | pendingConnection (peer : SockAddr)
  | inCall (peer : SockAddr)
  | stopped
deriving DecidableEq, Repr

/-- `network_thread.rs` lines 27-35: the packet kind byte
(`NetworkPacketType`, `#[repr(u8)]` with discriminants 0..4). -/
inductive NetworkPacketType where
  | startConnection
  | stopConnection
  | audio
  | heartbeat
  | accept
deriving DecidableEq, Repr

/-- The `u8` discriminant of each packet kind (`packet_type as u8`). -/
def NetworkPacketType.toByte : NetworkPacketType → Nat
  | .startConnection => 0
  | .stopConnection => 1
  | .audio => 2
  | .heartbeat => 3
  | .accept => 4

/-- `network_thread.rs` lines 37-41: a protocol packet.  Payload bytes
(`Vec<u8>`) are embedded as `List Nat` (each conceptually < 256). -/
structure NetworkPacket where
  packet_type : NetworkPacketType
  data : List Nat
deriving DecidableEq, Repr

/-- Little-endian byte image of one `i16` sample, written `s` as an
`Int`: the low byte then the high byte of `s mod 2^16`. -/
def i16ToLeBytes (s : Int) : List Nat :=
  [(s % 65536).toNat % 256, (s % 65536).toNat / 256]

/-- Byte image of an `i16` sample buffer.  `NetworkPacket::new_audio`
(`network_thread.rs` lines 58-75) reinterprets the `Vec<i16>`'s memory
in place as `Vec<u8>`; on the little-endian Linux targets this program
runs on, that memory layout is the little-endian encoding of each
sample in order. -/
def audioToBytes (samples : List Int) : List Nat :=
  samples.flatMap i16ToLeBytes

/-- Decode one little-endian `i16` from a low and a high byte, as a
signed integer. -/
def i16OfLeBytes (lo hi : Nat) : Int :=
  let u := lo + 256 * hi
  if u < 32768 then (u : Int) else (u : Int) - 65536

/-- Reinterpret a byte buffer as `i16` samples, `network_thread.rs`
lines 164-170: the sample count is `data.len() / 2` (flooring), so a
trailing odd byte is dropped. -/
def bytesToAudio : List Nat → List Int
  | lo :: hi :: rest => i16OfLeBytes lo hi :: bytesToAudio rest
  | _ => []

/-- `NetworkPacket::new_start_connection`, `network_thread.rs` lines 44-49. -/
def NetworkPacket.new_start_connection : NetworkPacket :=
  ⟨.startConnection, []⟩

/-- `NetworkPacket::new_stop_connection`, `network_thread.rs` lines 51-56. -/
def NetworkPacket.new_stop_connection : NetworkPacket :=
  ⟨.stopConnection, []⟩

/-- `NetworkPacket::new_audio`, `network_thread.rs` lines 58-75. -/
def NetworkPacket.new_audio (audio : List Int) : NetworkPacket :=
  ⟨.audio, audioToBytes audio⟩

/-- `NetworkPacket::new_accept`, `network_thread.rs` lines 77-82. -/
def NetworkPacket.new_accept : NetworkPacket :=
  ⟨.accept, []⟩

/-- `NetworkPacket::new_heartbeat`, `network_thread.rs` lines 84-89. -/
def NetworkPacket.new_heartbeat : NetworkPacket :=
  ⟨.heartbeat, []⟩

/-- `NetworkPacket::serialize`, `network_thread.rs` lines 91-96: the
kind byte followed by the payload bytes. -/
def NetworkPacket.serialize (p : NetworkPacket) : List Nat :=
  p.packet_type.toByte :: p.data

/-- `NetworkPacket::deserialize`, `network_thread.rs` lines 98-116.
`none` models a panic: indexing `data[0]` on an empty buffer, or the
`_ => panic` arm for a kind byte outside 0..4. -/
def NetworkPacket.deserialize (data : List Nat) : Option NetworkPacket :=
  match data with
  | [] => none
  | b :: rest =>
    let pt? : Option NetworkPacketType :=
      match b with
      | 0 => some .startConnection
      | 1 => some .stopConnection
      | 2 => some .audio
      | 3 => some .heartbeat
      | 4 => some .accept
      | _ => none
    match pt? with
    | none => none
    | some pt => if rest.isEmpty then some ⟨pt, []⟩ else some ⟨pt, rest⟩

/-- Observable effects of one Network-task step: a send on the UI
channel, a send on the Playback channel, or a UDP datagram. -/
inductive NetOutput where
  | toUI (c : CallScreenCommand)
  | toPlayback (c : OutputAudioTaskCommand)
  | udpSend (dest : SockAddr) (bytes : List Nat)
deriving DecidableEq, Repr

/-- The datagram-receive half of one iteration of `network_task`
(`network_thread.rs` lines 139-200): state `s` receives `bytes` from
source address `src`.  Returns the new state and the outputs in source
order; `none` models a panic inside `NetworkPacket::deserialize`.
Note the source reads the packet in the `PendingConnection` and
`InCall` arms without inspecting the datagram's source address. -/
def recvStep (s : NetworkState) (src : SockAddr) (bytes : List Nat) :
    Option (NetworkState × List NetOutput) :=
  match s with
  | .pendingConnection peer =>
    if bytes.length ≠ 0 then
      match NetworkPacket.deserialize bytes with
      | none => none
      | some pkt =>
        if pkt.packet_type = .accept then
          some (.inCall peer, [.toUI (.startCall peer)])
        else if pkt.packet_type = .stopConnection then
          some (.stopped, [.toUI .stopCall])
        else
          some (.pendingConnection peer, [])
    else some (.pendingConnection peer, [])
  | .inCall peer =>
    if bytes.length ≠ 0 then
      match NetworkPacket.deserialize bytes with
      | none => none
      | some pkt =>
        if pkt.packet_type = .audio then
          some (.inCall peer, [.toPlayback (.play (bytesToAudio pkt.data))])
        else if pkt.packet_type = .stopConnection then
          some (.stopped, [.toUI .stopCall])
        else
          some (.inCall peer, [])
    else some (.inCall peer, [])
  | .stopped =>
    if bytes.length ≠ 0 then
      match NetworkPacket.deserialize bytes with
      | none => none
      | some pkt =>
        if pkt.packet_type = .startConnection then
          some (.pendingConnection src,
            [.udpSend src NetworkPacket.new_heartbeat.serialize,
             .toUI (.incomingCall src)])
        else
          some (.stopped, [])
    else some (.stopped, [])

/-- The command-drain half of one iteration of `network_task`
(`network_thread.rs` lines 204-248), after bootstrap.  Returns the new
state, the outputs, and whether the loop breaks (`Exit`). -/
def cmdStep (s : NetworkState) (c : NetworkTaskCommand) :
    NetworkState × List NetOutput × Bool :=
  match c with
  | .startConnection message =>
    (.pendingConnection message,
     [.udpSend message NetworkPacket.new_start_connection.serialize], false)
  | .sendAccept =>
    match s with
    | .pendingConnection peer =>
      (.inCall peer, [.udpSend peer NetworkPacket.new_accept.serialize], false)
    | _ => (s, [], false)
  | .stopConnection =>
    match s with
    | .inCall peer =>
      (.stopped, [.udpSend peer NetworkPacket.new_stop_connection.serialize], false)
    | _ => (.stopped, [], false)
  | .sendAudio audio =>
    match s with
    | .inCall remote_peer =>
      (.inCall remote_peer,
       [.udpSend remote_peer (NetworkPacket.new_audio audio).serialize], false)
    | _ => (s, [], false)
  | .exit => (s, [], true)
  | .mainTaskQueue => (s, [], false)
  | .outputAudioQueue => (s, [], false)

/-- **C6.** For every packet constructible by the protocol — any of the
five kinds with arbitrary payload bytes — deserializing its
serialization yields the packet back. -/
theorem c6_serialize_deserialize_roundtrip (p : NetworkPacket) :
    NetworkPacket.deserialize p.serialize = some p := by
  obtain ⟨t, d⟩ := p
  cases t <;> cases d <;>
    simp [NetworkPacket.serialize, NetworkPacket.deserialize, NetworkPacketType.toByte]

/-- **C1.** The claim that every malformed datagram is discarded with
the state unchanged and no crash is wrong on two counts, in every state:
a datagram whose kind byte is outside 0..4 (e.g. the single byte 7)
makes `NetworkPacket::deserialize` panic, killing the Network task
(modelled by `recvStep … = none`); and an `Audio` payload whose length
is not a multiple of 4 is not dropped during a call but forwarded to
Playback with `len / 2` samples (here `[2, 1, 0]` — a 2-byte payload —
is forwarded as one sample).  Only the empty-datagram part of the claim
holds: a 0-byte datagram is ignored in every state. -/
theorem c1_malformed_datagram_handling (s : NetworkState) (src p : SockAddr) :
    recvStep s src [7] = none
    ∧ recvStep s src [] = some (s, [])
    ∧ recvStep (.inCall p) src [2, 1, 0] =
        some (.inCall p, [.toPlayback (.play [1])]) := by
  refine ⟨?_, ?_, ?_⟩
  · cases s <;> rfl
  · cases s <;> rfl
  · rfl

/-- **C3 counterexample.** With the Network state `PendingConnection(p)`
for `p = (1, 33445)`, an `Accept` datagram arriving from the different
address `q = (2, 33445)` does cause the transition to `InCall(p)` (and
the `StartCall` notification to the UI), contrary to the claim that an
`Accept` from an address other than `p` has no effect. -/
theorem c3_foreign_accept_counterexample :
    (⟨2, 33445⟩ : SockAddr) ≠ (⟨1, 33445⟩ : SockAddr)
    ∧ recvStep (.pendingConnection ⟨1, 33445⟩) ⟨2, 33445⟩
        NetworkPacket.new_accept.serialize =
      some (.inCall ⟨1, 33445⟩, [.toUI (.startCall ⟨1, 33445⟩)]) := by
  exact ⟨by decide, rfl⟩

/-- **C3 amended.** In the states `PendingConnection(p)` and
`InCall(p)` the handling of an incoming datagram is independent of the
datagram's source address — in particular an `Accept` from any address
completes the handshake — but the peer identity recorded in the state
is never replaced by the foreign address: whenever the resulting state
still carries a peer, that peer is `p`. -/
theorem c3_source_ignored_peer_preserved (p src src2 : SockAddr) (bytes : List Nat) :
    (recvStep (.pendingConnection p) src bytes = recvStep (.pendingConnection p) src2 bytes)
    ∧ (recvStep (.inCall p) src bytes = recvStep (.inCall p) src2 bytes)
    ∧ (∀ s2 outs, recvStep (.pendingConnection p) src bytes = some (s2, outs) →
        s2 = .pendingConnection p ∨ s2 = .inCall p ∨ s2 = .stopped)
    ∧ (∀ s2 outs, recvStep (.inCall p) src bytes = some (s2, outs) →
        s2 = .inCall p ∨ s2 = .stopped) := by
  refine ⟨rfl, rfl, ?_, ?_⟩
  · intro s2 outs h
    simp only [recvStep] at h
    split at h
    · split at h
      · exact absurd h (by simp)
      · split at h
        · simp only [Option.some.injEq, Prod.mk.injEq] at h
          exact Or.inr (Or.inl h.1.symm)
        · split at h
          · simp only [Option.some.injEq, Prod.mk.injEq] at h
            exact Or.inr (Or.inr h.1.symm)
          · simp only [Option.some.injEq, Prod.mk.injEq] at h
            exact Or.inl h.1.symm
    · simp only [Option.some.injEq, Prod.mk.injEq] at h
      exact Or.inl h.1.symm
  · intro s2 outs h
    simp only [recvStep] at h
    split at h
    · split at h
      · exact absurd h (by simp)
      · split at h
        · simp only [Option.some.injEq, Prod.mk.injEq] at h
          exact Or.inl h.1.symm
        · split at h
          · simp only [Option.some.injEq, Prod.mk.injEq] at h
            exact Or.inr h.1.symm
          · simp only [Option.some.injEq, Prod.mk.injEq] at h
            exact Or.inl h.1.symm
    · simp only [Option.some.injEq, Prod.mk.injEq] at h
      exact Or.inl h.1.symm

/-- Witness for `c3_source_ignored_peer_preserved` at concrete inputs. -/
theorem c3_source_ignored_witness :
    (recvStep (.pendingConnection ⟨1, 33445⟩) ⟨2, 33445⟩ [4] =
      recvStep (.pendingConnection ⟨1, 33445⟩) ⟨3, 33445⟩ [4])
    ∧ (recvStep (.inCall ⟨1, 33445⟩) ⟨2, 33445⟩ [4] =
        recvStep (.inCall ⟨1, 33445⟩) ⟨3, 33445⟩ [4])
    ∧ (∀ s2 outs, recvStep (.pendingConnection ⟨1, 33445⟩) ⟨2, 33445⟩ [4] = some (s2, outs) →
        s2 = .pendingConnection ⟨1, 33445⟩ ∨ s2 = .inCall ⟨1, 33445⟩ ∨ s2 = .stopped)
    ∧ (∀ s2 outs, recvStep (.inCall ⟨1, 33445⟩) ⟨2, 33445⟩ [4] = some (s2, outs) →
        s2 = .inCall ⟨1, 33445⟩ ∨ s2 = .stopped) :=
  c3_source_ignored_peer_preserved ⟨1, 33445⟩ ⟨2, 33445⟩ ⟨3, 33445⟩ [4]

/-- **C4.** On `SendAudio(samples)` in state `InCall(p)` the Network
task sends exactly one datagram, the serialized `Audio` packet, to `p`
and stays in `InCall(p)`; for samples `[1, 2]` the datagram bytes are
`[0x02, 0x01, 0x00, 0x02, 0x00]`; in `Stopped` and in
`PendingConnection` no datagram is sent and the state is unchanged. -/
theorem c4_send_audio_gating (p q : SockAddr) (samples : List Int) :
    cmdStep (.inCall p) (.sendAudio samples) =
      (.inCall p, [.udpSend p (2 :: audioToBytes samples)], false)
    ∧ (NetworkPacket.new_audio [1, 2]).serialize = [2, 1, 0, 2, 0]
    ∧ cmdStep .stopped (.sendAudio samples) = (.stopped, [], false)
    ∧ cmdStep (.pendingConnection q) (.sendAudio samples) =
        (.pendingConnection q, [], false) := by
  exact ⟨rfl, rfl, rfl, rfl⟩

/-- **C5 counterexample.** In state `InCall((7, 33445))` the command
`StartConnection((9, 33445))` is not ignored: a `StartConnection`
datagram is sent to `(9, 33445)` and the state becomes
`PendingConnection((9, 33445))`, not `InCall((7, 33445))`. -/
theorem c5_start_connection_counterexample :
    cmdStep (.inCall ⟨7, 33445⟩) (.startConnection ⟨9, 33445⟩) =
      (.pendingConnection ⟨9, 33445⟩, [.udpSend ⟨9, 33445⟩ [0]], false)
    ∧ (NetworkState.pendingConnection ⟨9, 33445⟩ ≠ .inCall ⟨7, 33445⟩) := by
  exact ⟨rfl, by decide⟩

/-- **C5 amended.** In every state — including `InCall(p)` — a
`StartConnection(q)` command emits one `StartConnection` datagram to
`q` and moves the state to `PendingConnection(q)` (the source handles
the command without inspecting the current state, matching the spec's
§4.1 "while any state" prose rather than its state table). -/
theorem c5_start_connection_any_state (s : NetworkState) (q : SockAddr) :
    cmdStep s (.startConnection q) =
      (.pendingConnection q,
       [.udpSend q NetworkPacket.new_start_connection.serialize], false) := by
  rfl

/-- The tasks of the system as named by the spec.  `input` is the
hardware input-event forwarder of `events.rs`. -/
inductive TaskName where
  | playback
  | capture
  | network
  | input
  | ui
deriving DecidableEq, Repr

/-- The channel messages `main` sends, by effect. -/
inductive MainMsg where
  | mainTaskQueue
  | outputAudioQueue
  | playReadySound
  | exitMsg
deriving DecidableEq, Repr

/-- One action of the `main` coordinator. -/
inductive MainAction where
  | spawnTask (t : TaskName)
  | sendMsg (t : TaskName) (m : MainMsg)
  | joinTask (t : TaskName)
  | sleepMs (n : Nat)
deriving DecidableEq, Repr

/-- The action sequence of `main` (`main.rs` lines 17-56), in source
order: spawn Playback, Network, Capture, UI; sleep 100 ms; bootstrap
Network with the UI and Playback channel handles; play the ready tone;
join UI; send `Exit` to Playback, Capture, Network; join Playback,
Capture, Network.  `events.rs`'s `create_event_task` is never called. -/
def mainTrace : List MainAction :=
  [.spawnTask .playback,
   .spawnTask .network,
   .spawnTask .capture,
   .spawnTask .ui,
   .sleepMs 100,
   .sendMsg .network .mainTaskQueue,
   .sendMsg .network .outputAudioQueue,
   .sendMsg .playback .playReadySound,
   .joinTask .ui,
   .sendMsg .playback .exitMsg,
   .sendMsg .capture .exitMsg,
   .sendMsg .network .exitMsg,
   .joinTask .playback,
   .joinTask .capture,
   .joinTask .network]

/-- The tasks a trace spawns, in order. -/
def spawnedTasks (tr : List MainAction) : List TaskName :=
  tr.filterMap fun a =>
    match a with
    | .spawnTask t => some t
    | _ => none

/-- The suffix of a trace after the join of the UI task. -/
def afterUiJoin (tr : List MainAction) : List MainAction :=
  (tr.dropWhile (fun a => a ≠ .joinTask .ui)).drop 1

/-- The targets of the `Exit` messages in a trace, in order. -/
def exitTargets (tr : List MainAction) : List TaskName :=
  tr.filterMap fun a =>
    match a with
    | .sendMsg t .exitMsg => some t
    | _ => none

/-- **C2 counterexample.** `main` spawns only four tasks — the Input
task of `events.rs` is never spawned — and after the UI task is joined
it sends `Exit` to three tasks, not four. -/
theorem c2_five_tasks_counterexample :
    TaskName.input ∉ spawnedTasks mainTrace
    ∧ (spawnedTasks mainTrace).length = 4
    ∧ (exitTargets (afterUiJoin mainTrace)).length = 3 := by
  decide

/-- **C2 amended.** Four long-lived tasks are spawned, in order
Playback, Network, Capture, UI (the Input task exists in the source but
is never started); when the UI task terminates, `main` broadcasts
`Exit` to the three remaining tasks — Playback, Capture, Network — and
joins each of them. -/
theorem c2_shutdown_broadcast :
    spawnedTasks mainTrace = [.playback, .network, .capture, .ui]
    ∧ afterUiJoin mainTrace =
        [.sendMsg .playback .exitMsg,
         .sendMsg .capture .exitMsg,
         .sendMsg .network .exitMsg,
         .joinTask .playback,
         .joinTask .capture,
         .joinTask .network] := by
  decide

/-- The PCM sample formats this program mentions (`alsa::pcm::Format`). -/
inductive PcmFormat where
  | s16le
  | s32le
deriving DecidableEq, Repr

/-- The PCM access modes this program mentions (`alsa::pcm::Access`). -/
inductive PcmAccess where
  | rwInterleaved
deriving DecidableEq, Repr

/-- A PCM device configuration as assembled by the capture and playback
tasks. -/
structure PcmConfig where
  device : String
  access : PcmAccess
  format : PcmFormat
  channels : Nat
  rate : Nat
deriving DecidableEq, Repr

/-- The capture configuration of `input_audio_task`
(`input_audio_task.rs` lines 17-33): device `INPUT_HARDWARE_NAME =
"hw:0"`, interleaved access, format `S32LE`, 2 channels, 48000 Hz. -/
def captureConfig : PcmConfig :=
  { device := "hw:0"
    access := .rwInterleaved
    format := .s32le
    channels := 2
    rate := 48000 }

/-- The 32-bit-to-16-bit narrowing the capture loop applies before
sending (`input_audio_task.rs` lines 46-50): each captured `i32` is
divided by 256 (Rust `i32` division truncates toward zero) and cast to
`i16`; the cast wraps modulo 2^16, written here via the little-endian
byte image used on the wire. -/
def captureNarrow (x : Int) : Int :=
  let q := Int.tdiv x 256
  let u := (q % 65536).toNat
  if u < 32768 then (u : Int) else (u : Int) - 65536

/-- **C9 counterexample.** The Capture task does not open the default
device with format S16LE: it opens `"hw:0"` with format `S32LE`. -/
theorem c9_capture_format_counterexample :
    captureConfig.device ≠ "default" ∧ captureConfig.format ≠ .s16le := by
  decide

/-- **C9 amended.** The Capture task opens capture device `"hw:0"`
configured for interleaved 32-bit (`S32LE`) stereo at 48 kHz; the
captured 32-bit samples are narrowed by division by 256 before being
sent to the Network task. -/
theorem c9_capture_config :
    captureConfig =
      { device := "hw:0", access := .rwInterleaved, format := .s32le,
        channels := 2, rate := 48000 }
    ∧ captureNarrow 65536 = 256 := by
  exact ⟨rfl, by decide⟩

/-- One colour channel of an RGB LED (`LedInfo` fields, `terminal_task.rs`
lines 150-154). -/
inductive LedChannel where
  | red
  | green
  | blue
deriving DecidableEq, Repr

/-- One write of an ASCII integer to a brightness sysfs file: LED index
(0..2), channel, and the value written. -/
structure LedWrite where
  led : Nat
  chan : LedChannel
  val : Nat
deriving DecidableEq, Repr

/-- Nine brightness writes in the order the source performs them:
led0 red, green, blue; led1 red, green, blue; led2 red, green, blue. -/
def ledRow (r0 g0 b0 r1 g1 b1 r2 g2 b2 : Nat) : List LedWrite :=
  [⟨0, .red, r0⟩, ⟨0, .green, g0⟩, ⟨0, .blue, b0⟩,
   ⟨1, .red, r1⟩, ⟨1, .green, g1⟩, ⟨1, .blue, b1⟩,
   ⟨2, .red, r2⟩, ⟨2, .green, g2⟩, ⟨2, .blue, b2⟩]

/-- `AppState::animation`, `terminal_task.rs` lines 231-321: given the
current `animation_state`, write the current phase's nine brightness
values and advance the phase.  Returns the new phase and the writes;
`none` models the `unreachable` arm for a phase outside 0..4. -/
def animation : Nat → Option (Nat × List LedWrite)
  | 0 => some (1, ledRow 0 0 0 0 0 0 0 0 0)
  | 1 => some (2, ledRow 128 128 128 128 128 128 128 128 128)
  | 2 => some (3, ledRow 128 0 0 0 128 0 0 0 128)
  | 3 => some (4, ledRow 0 128 0 0 0 128 128 0 0)
  | 4 => some (0, ledRow 0 0 128 128 0 0 0 128 0)
  | _ => none

/-- `AppState::stop_animation`, `terminal_task.rs` lines 323-340: reset
the phase to 0 and write 0 to all nine brightness files. -/
def stop_animation : Nat × List LedWrite :=
  (0, ledRow 0 0 0 0 0 0 0 0 0)

/-- Modelled from the spec's §4.5 table (the reference the claim
compares against): the nine brightness values of each phase, led0 RGB,
led1 RGB, led2 RGB. -/
def specLedTable : Nat → List LedWrite
  | 0 => ledRow 0 0 0 0 0 0 0 0 0
  | 1 => ledRow 128 128 128 128 128 128 128 128 128
  | 2 => ledRow 128 0 0 0 128 0 0 0 128
  | 3 => ledRow 0 128 0 0 0 128 128 0 0
  | 4 => ledRow 0 0 128 128 0 0 0 128 0
  | _ => []

/-- Iterate `animation` a given number of times from a phase, collecting
the successive phases and all writes; `none` if any call panics. -/
def animIter : Nat → Nat → Option (List Nat × List LedWrite)
  | 0, _ => some ([], [])
  | n + 1, p =>
    match animation p with
    | none => none
    | some (p2, ws) =>
      match animIter n p2 with
      | none => none
      | some (ps, ws2) => some (p2 :: ps, ws ++ ws2)

/-- **C8.** Starting at phase 0, five successive `animation()` calls
visit phases 1, 2, 3, 4, 0 in that order and write exactly the nine
brightness values of each row of the §4.5 table (each call writes the
row of the phase it starts in and then advances, so the five calls
write rows 0, 1, 2, 3, 4 in order); `stop_animation()` writes 0 to all
nine brightness files and resets the phase to 0. -/
theorem c8_led_animation_cycle :
    animIter 5 0 = some ([1, 2, 3, 4, 0],
      specLedTable 0 ++ specLedTable 1 ++ specLedTable 2 ++
        specLedTable 3 ++ specLedTable 4)
    ∧ animation 0 = some (1, specLedTable 0)
    ∧ animation 1 = some (2, specLedTable 1)
    ∧ animation 2 = some (3, specLedTable 2)
    ∧ animation 3 = some (4, specLedTable 3)
    ∧ animation 4 = some (0, specLedTable 4)
    ∧ stop_animation = (0, specLedTable 0)
    ∧ stop_animation.2.map LedWrite.val = [0, 0, 0, 0, 0, 0, 0, 0, 0] := by
  decide

/-- `terminal_task.rs` lines 75-86: the call-screen status.
`std::time::Instant` values are abstracted as `Nat` clock readings;
each step takes the current reading as an argument. -/
inductive CallScreenStatus where
  | calling
  | incomingCall
  | inCall (start_time : Nat)
  | callEnded (start_time end_time : Nat)
deriving DecidableEq, Repr

/-- `terminal_task.rs` lines 101-107: the call-screen model
(`CallScreenState`).  `volume` is an `i64`, embedded as `Int`. -/
structure CallScreenState where
  is_muted : Bool
  volume : Int
  remote_ip : Nat
  remote_name : Option String
  call_status : CallScreenStatus
deriving DecidableEq, Repr

/-- `CallScreenState::new`, `terminal_task.rs` lines 110-118. -/
def CallScreenState.new (ip : Nat) : CallScreenState :=
  { is_muted := false
    volume := 100
    call_status := .calling
    remote_ip := ip
    remote_name := none }

/-- The home menu's selection (`StatefulList` over the three fixed items
Call/Contacts/Exit, `terminal_task.rs` lines 19-73). -/
structure HomeScreenState where
  selected : Option Nat
deriving DecidableEq, Repr

/-- `HomeScreenState::new`, `terminal_task.rs` lines 65-73: a fresh list
followed by one `next()`, selecting item 0. -/
def HomeScreenState.new : HomeScreenState :=
  ⟨some 0⟩

/-- `StatefulList::next` for the three-item home menu,
`terminal_task.rs` lines 32-44. -/
def homeNext (h : HomeScreenState) : HomeScreenState :=
  match h.selected with
  | some i => if i ≥ 2 then ⟨some 0⟩ else ⟨some (i + 1)⟩
  | none => ⟨some 0⟩

/-- `StatefulList::previous` for the three-item home menu,
`terminal_task.rs` lines 46-58. -/
def homePrevious (h : HomeScreenState) : HomeScreenState :=
  match h.selected with
  | some i => if i = 0 then ⟨some 2⟩ else ⟨some (i - 1)⟩
  | none => ⟨some 0⟩

/-- `terminal_task.rs` lines 121-126: the contacts screen model. -/
structure ContactsScreenState where
  contacts : List String
  selected_contact : Option Nat
  new_contact_name : String
  new_contact_ip : String
deriving DecidableEq, Repr

/-- `ContactsScreenState::new`, `terminal_task.rs` lines 128-137. -/
def ContactsScreenState.new : ContactsScreenState :=
  ⟨[], none, "", ""⟩

/-- `terminal_task.rs` lines 139-141: the dial-dialog model. -/
structure CallInfoScreenState where
  ip : String
deriving DecidableEq, Repr

/-- `terminal_task.rs` lines 143-148: the screen state union. -/
inductive ScreenState where
  | home (h : HomeScreenState)
  | contacts (c : ContactsScreenState)
  | enterCallInfo (i : CallInfoScreenState)
  | call (c : CallScreenState)
deriving DecidableEq, Repr

/-- The UI-relevant part of `AppState` (`terminal_task.rs` lines
156-166): the screen state and the LED animation phase.  Channel
handles and LED file handles carry no state of their own. -/
structure AppUiState where
  screen_state : ScreenState
  animation_state : Nat
deriving DecidableEq, Repr

/-- `AppState::new`, `terminal_task.rs` lines 218-229: home screen,
animation phase 0. -/
def AppUiState.new : AppUiState :=
  { screen_state := .home HomeScreenState.new
    animation_state := 0 }

/-- Observable effects of one UI-task step: sends to Playback, Capture
and Network, and brightness-file writes. -/
inductive UiOutput where
  | toPlayback (c : OutputAudioTaskCommand)
  | toCapture (c : InputAudioCommand)
  | toNetwork (c : NetworkTaskCommand)
  | toLed (w : LedWrite)
deriving DecidableEq, Repr

/-- External collaborators of the UI task, abstracted: `parseIp` is
`str::parse::<IpAddr>` (an IP literal parser from the standard library)
and `ringTone` is the PCM result of decoding the embedded ringtone MP3
(`utils::decode_bytes`). -/
structure UiCtx where
  parseIp : String → Option Nat
  ringTone : List Int

/-- The keypress codes `handle_events` distinguishes
(`crossterm::event::KeyCode`); `other` stands for every other code. -/
inductive KeyCode where
  | up
  | down
  | enter
  | esc
  | backspace
  | char (c : Char)
  | other
deriving DecidableEq, Repr

/-- The command-drain phase of `handle_events` (`terminal_task.rs`
lines 551-640): process one received `CallScreenCommand`.  Returns the
new state, the outputs in source order, and whether the task returns
`true` (terminate). -/
def stepCmd (ctx : UiCtx) (now : Nat) (s : AppUiState) (c : CallScreenCommand) :
    AppUiState × List UiOutput × Bool :=
  match c with
  | .startCall sock =>
    let cs := { CallScreenState.new sock.ip with call_status := CallScreenStatus.inCall now }
    ({ s with screen_state := .call cs },
     [.toPlayback .stop, .toCapture .start], false)
  | .incomingCall sock =>
    let cs := { CallScreenState.new sock.ip with call_status := CallScreenStatus.incomingCall }
    ({ s with screen_state := .call cs },
     [.toPlayback .stop, .toPlayback (.play ctx.ringTone)], false)
  | .stopCall =>
    match s.screen_state with
    | .call _ =>
      ({ screen_state := .home HomeScreenState.new, animation_state := stop_animation.1 },
       [.toNetwork .stopConnection, .toCapture .stop, .toPlayback .stop] ++
         stop_animation.2.map .toLed, false)
    | _ => (s, [], false)
  | .acceptCall =>
    match s.screen_state with
    | .call cs =>
      let cs2 := { cs with call_status := CallScreenStatus.inCall now }
      ({ screen_state := .call cs2, animation_state := stop_animation.1 },
       [.toNetwork .sendAccept, .toCapture .start, .toPlayback .stop] ++
         stop_animation.2.map .toLed, false)
    | _ => (s, [], false)
  | .rejectCall =>
    ({ screen_state := .home HomeScreenState.new, animation_state := stop_animation.1 },
     [.toNetwork .stopConnection, .toCapture .stop, .toPlayback .stop] ++
       stop_animation.2.map .toLed, false)
  | .endCall =>
    ({ s with screen_state := .home HomeScreenState.new },
     [.toNetwork .stopConnection], false)
  | .exit => (s, [], true)
  | .increaseVolume =>
    match s.screen_state with
    | .call cs =>
      let cs2 := { cs with volume := min (cs.volume + 5) 100 }
      ({ s with screen_state := .call cs2 },
       [.toPlayback (.setVolume cs2.volume)], false)
    | _ => (s, [], false)
  | .decreaseVolume =>
    match s.screen_state with
    | .call cs =>
      let cs2 := { cs with volume := max (cs.volume - 5) 0 }
      ({ s with screen_state := .call cs2 },
       [.toPlayback (.setVolume cs2.volume)], false)
    | _ => (s, [], false)
  | .toggleMute =>
    match s.screen_state with
    | .call cs =>
      let cs2 := { cs with is_muted := !cs.is_muted }
      ({ s with screen_state := .call cs2 },
       [.toPlayback (.setMute cs2.is_muted)], false)
    | _ => (s, [], false)

/-- The animation phase of `handle_events` (`terminal_task.rs` lines
642-646): while the screen shows an incoming call, advance the LED ring
one step.  `none` models the `unreachable` arm of `animation`. -/
def stepAnim (s : AppUiState) : Option (AppUiState × List UiOutput) :=
  match s.screen_state with
  | .call cs =>
    match cs.call_status with
    | .incomingCall =>
      match animation s.animation_state with
      | none => none
      | some (p, ws) => some ({ s with animation_state := p }, ws.map .toLed)
    | _ => some (s, [])
  | _ => some (s, [])

/-- The keypress phase of `handle_events` (`terminal_task.rs` lines
648-753): apply one keypress to the current screen.  `none` models the
`todo` arm for the Contacts screen. -/
def stepKey (ctx : UiCtx) (now : Nat) (s : AppUiState) (k : KeyCode) :
    Option (AppUiState × List UiOutput × Bool) :=
  match s.screen_state with
  | .home hs =>
    match k with
    | .up => some ({ s with screen_state := .home (homePrevious hs) }, [], false)
    | .down => some ({ s with screen_state := .home (homeNext hs) }, [], false)
    | .enter =>
      match hs.selected with
      | some 0 => some ({ s with screen_state := .enterCallInfo ⟨""⟩ }, [], false)
      | some 1 => some ({ s with screen_state := .contacts ContactsScreenState.new }, [], false)
      | some 2 => some (s, [], true)
      | _ => some (s, [], false)
    | _ => some (s, [], false)
  | .enterCallInfo info =>
    match k with
    | .enter =>
      match ctx.parseIp info.ip with
      | some ip =>
        some ({ s with screen_state := .call (CallScreenState.new ip) },
          [.toNetwork (.startConnection ⟨ip, 33445⟩)], false)
      | none => some (s, [], false)
    | .esc => some ({ s with screen_state := .home HomeScreenState.new }, [], false)
    | .char c => some ({ s with screen_state := .enterCallInfo ⟨info.ip.push c⟩ }, [], false)
    | .backspace =>
      some ({ s with screen_state := .enterCallInfo ⟨info.ip.dropRight 1⟩ }, [], false)
    | _ => some (s, [], false)
  | .contacts _ => none
  | .call cs =>
    match k with
    | .esc =>
      some ({ screen_state := .home HomeScreenState.new, animation_state := stop_animation.1 },
        [.toNetwork .stopConnection, .toCapture .stop, .toPlayback .stop] ++
          stop_animation.2.map .toLed, false)
    | .char c =>
      if c = 'm' then
        let cs2 := { cs with is_muted := !cs.is_muted }
        some ({ s with screen_state := .call cs2 },
          [.toPlayback (.setMute cs2.is_muted)], false)
      else if c = 'a' then
        let cs2 := { cs with volume := max (cs.volume - 5) 0 }
        some ({ s with screen_state := .call cs2 },
          [.toPlayback (.setVolume cs2.volume)], false)
      else if c = 'd' then
        let cs2 := { cs with volume := min (cs.volume + 5) 100 }
        some ({ s with screen_state := .call cs2 },
          [.toPlayback (.setVolume cs2.volume)], false)
      else some (s, [], false)
    | .enter =>
      match cs.call_status with
      | .incomingCall =>
        let cs2 := { cs with call_status := CallScreenStatus.inCall now }
        some ({ s with screen_state := .call cs2 },
          [.toNetwork .sendAccept, .toCapture .start, .toPlayback .stop], false)
      | _ => some (s, [], false)
    | _ => some (s, [], false)

/-- `handle_events` (`terminal_task.rs` lines 549-756): drain at most
one command, advance the animation while an incoming call is shown,
then apply at most one keypress.  Returns the new state, the outputs,
and the `should_quit` flag; `none` models a panic. -/
def uiStepCore (ctx : UiCtx) (now : Nat) (s : AppUiState)
    (cmd? : Option CallScreenCommand) (key? : Option KeyCode) :
    Option (AppUiState × List UiOutput × Bool) :=
  let a := match cmd? with
    | none => (s, [], false)
    | some c => stepCmd ctx now s c
  if a.2.2 then some (a.1, a.2.1, true)
  else
    match stepAnim a.1 with
    | none => none
    | some (s2, o2) =>
      match key? with
      | none => some (s2, a.2.1 ++ o2, false)
      | some k =>
        match stepKey ctx now s2 k with
        | none => none
        | some (s3, o3, q3) => some (s3, a.2.1 ++ o2 ++ o3, q3)

/-- One full UI loop iteration: the draw that precedes `handle_events`
panics (`todo`) when the current screen is the Contacts screen;
otherwise the iteration proceeds as `uiStepCore`. -/
def uiStep (ctx : UiCtx) (now : Nat) (s : AppUiState)
    (cmd? : Option CallScreenCommand) (key? : Option KeyCode) :
    Option (AppUiState × List UiOutput × Bool) :=
  match s.screen_state with
  | .contacts _ => none
  | _ => uiStepCore ctx now s cmd? key?

/-- The UI task's loop state: the app state and the `should_quit` flag. -/
structure UiSys where
  app : AppUiState
  quit : Bool
deriving DecidableEq, Repr

/-- One iteration's environment input: at most one channel command, at
most one keypress, and the current clock reading. -/
structure UiInput where
  cmd : Option CallScreenCommand
  key : Option KeyCode
  now : Nat
deriving DecidableEq, Repr

/-- Advance the UI loop by one input; once `should_quit` is set the
loop has exited and further inputs have no effect. -/
def uiLoopStep (ctx : UiCtx) (sys : UiSys) (i : UiInput) : Option UiSys :=
  if sys.quit then some sys
  else
    match uiStep ctx i.now sys.app i.cmd i.key with
    | none => none
    | some (s2, _, q) => some ⟨s2, q⟩

/-- Run the UI loop from a given loop state over a sequence of inputs. -/
def uiRunFrom (ctx : UiCtx) (s0 : UiSys) : List UiInput → Option UiSys
  | [] => some s0
  | i :: is =>
    match uiLoopStep ctx s0 i with
    | none => none
    | some s1 => uiRunFrom ctx s1 is

/-- Run the UI task from its initial state over a sequence of inputs. -/
def uiRun (ctx : UiCtx) (inputs : List UiInput) : Option UiSys :=
  uiRunFrom ctx ⟨AppUiState.new, false⟩ inputs

/-- The call-screen volume is within `[0, 100]` (vacuously true when no
call screen is shown). -/
def volumeOK (s : AppUiState) : Bool :=
  match s.screen_state with
  | .call cs => 0 ≤ cs.volume && cs.volume ≤ 100
  | _ => true

/-- The inductive invariant of the UI task: the call-screen volume is
in range and the animation phase is in 0..4. -/
def uiInvB (s : AppUiState) : Bool :=
  volumeOK s && s.animation_state < 5

/-- Every defined arm of `animation` advances to a phase in 0..4. -/
theorem animation_phase_lt (p p2 : Nat) (ws : List LedWrite)
    (h : animation p = some (p2, ws)) : p2 < 5 := by
  match p with
  | 0 => simp only [animation, Option.some.injEq, Prod.mk.injEq] at h; omega
  | 1 => simp only [animation, Option.some.injEq, Prod.mk.injEq] at h; omega
  | 2 => simp only [animation, Option.some.injEq, Prod.mk.injEq] at h; omega
  | 3 => simp only [animation, Option.some.injEq, Prod.mk.injEq] at h; omega
  | 4 => simp only [animation, Option.some.injEq, Prod.mk.injEq] at h; omega
  | n + 5 => exact Option.noConfusion h

/-- `animation` is defined on every phase in 0..4. -/
theorem animation_isSome_of_lt (p : Nat) (h : p < 5) :
    ∃ p2 ws, animation p = some (p2, ws) := by
  match p with
  | 0 => exact ⟨_, _, rfl⟩
  | 1 => exact ⟨_, _, rfl⟩
  | 2 => exact ⟨_, _, rfl⟩
  | 3 => exact ⟨_, _, rfl⟩
  | 4 => exact ⟨_, _, rfl⟩
  | n + 5 => omega

/-- The command phase preserves the UI invariant. -/
theorem stepCmd_inv (ctx : UiCtx) (now : Nat) (s : AppUiState) (c : CallScreenCommand)
    (h : uiInvB s = true) : uiInvB (stepCmd ctx now s c).1 = true := by
  simp only [uiInvB, volumeOK, Bool.and_eq_true, decide_eq_true_eq] at h ⊢
  obtain ⟨hv, ha⟩ := h
  cases c <;> cases hs : s.screen_state <;>
    simp_all [stepCmd, CallScreenState.new, HomeScreenState.new, stop_animation] <;>
    omega

/-- The animation phase succeeds on any state satisfying the invariant,
leaves the screen unchanged and preserves the invariant. -/
theorem stepAnim_spec (s : AppUiState) (h : uiInvB s = true) :
    ∃ s2 o2, stepAnim s = some (s2, o2)
      ∧ s2.screen_state = s.screen_state ∧ uiInvB s2 = true := by
  simp only [uiInvB, volumeOK, Bool.and_eq_true, decide_eq_true_eq] at h
  obtain ⟨hv, ha⟩ := h
  cases hs : s.screen_state with
  | call cs =>
    cases hst : cs.call_status with
    | incomingCall =>
      obtain ⟨p2, ws, hanim⟩ := animation_isSome_of_lt s.animation_state ha
      refine ⟨{ s with animation_state := p2 }, ws.map .toLed, ?_, hs, ?_⟩
      · simp [stepAnim, hs, hst, hanim]
      · have hp2 := animation_phase_lt _ _ _ hanim
        simp_all [uiInvB, volumeOK]
    | calling =>
      exact ⟨s, [], by simp [stepAnim, hs, hst], hs,
        by simp_all [uiInvB, volumeOK]⟩
    | inCall t =>
      exact ⟨s, [], by simp [stepAnim, hs, hst], hs,
        by simp_all [uiInvB, volumeOK]⟩
    | callEnded t1 t2 =>
      exact ⟨s, [], by simp [stepAnim, hs, hst], hs,
        by simp_all [uiInvB, volumeOK]⟩
  | home hh =>
    exact ⟨s, [], by simp [stepAnim, hs], hs, by simp_all [uiInvB, volumeOK]⟩
  | contacts cc =>
    exact ⟨s, [], by simp [stepAnim, hs], hs, by simp_all [uiInvB, volumeOK]⟩
  | enterCallInfo ii =>
    exact ⟨s, [], by simp [stepAnim, hs], hs, by simp_all [uiInvB, volumeOK]⟩

/-- The keypress phase preserves the UI invariant. -/
theorem stepKey_inv (ctx : UiCtx) (now : Nat) (s : AppUiState) (k : KeyCode)
    (s3 : AppUiState) (o3 : List UiOutput) (q3 : Bool)
    (h : uiInvB s = true) (hk : stepKey ctx now s k = some (s3, o3, q3)) :
    uiInvB s3 = true := by
  simp only [uiInvB, volumeOK, Bool.and_eq_true, decide_eq_true_eq] at h ⊢
  obtain ⟨hv, ha⟩ := h
  cases hs : s.screen_state <;> cases k <;>
    (try simp_all only [stepKey]) <;>
    (try split at hk) <;>
    (try split_ifs at hk) <;>
    (try simp only [Option.some.injEq, Prod.mk.injEq] at hk) <;>
    (try obtain ⟨h1, h2, h3⟩ := hk) <;>
    (try subst h1) <;>
    (try subst h3) <;>
    simp_all [CallScreenState.new, HomeScreenState.new, ContactsScreenState.new,
      homeNext, homePrevious, stop_animation] <;>
    omega

/-- Shape of `uiStepCore` when a command is drained (and does not quit)
and no key arrives. -/
theorem uiStepCore_cmd (ctx : UiCtx) (now : Nat) (s : AppUiState)
    (c : CallScreenCommand) (sc : AppUiState) (oc : List UiOutput)
    (sa : AppUiState) (oa : List UiOutput)
    (hc : stepCmd ctx now s c = (sc, oc, false))
    (hsa : stepAnim sc = some (sa, oa)) :
    uiStepCore ctx now s (some c) none = some (sa, oc ++ oa, false) := by
  simp [uiStepCore, hc, hsa]

/-- Shape of `uiStepCore` when no command is drained and one key
arrives. -/
theorem uiStepCore_key (ctx : UiCtx) (now : Nat) (s : AppUiState)
    (k : KeyCode) (sa : AppUiState) (oa : List UiOutput)
    (s3 : AppUiState) (o3 : List UiOutput) (q3 : Bool)
    (hsa : stepAnim s = some (sa, oa))
    (hk : stepKey ctx now sa k = some (s3, o3, q3)) :
    uiStepCore ctx now s none (some k) = some (s3, oa ++ o3, q3) := by
  simp [uiStepCore, hsa, hk]

/-- The animation-then-key tail of `uiStepCore` preserves the UI
invariant. -/
theorem uiStepTail_inv (ctx : UiCtx) (now : Nat)
    (key? : Option KeyCode) (s1 : AppUiState) (o1 : List UiOutput)
    (s2 : AppUiState) (outs : List UiOutput) (q : Bool)
    (h1 : uiInvB s1 = true)
    (hrest : (match stepAnim s1 with
      | none => none
      | some (sa, o2) =>
        match key? with
        | none => some (sa, o1 ++ o2, false)
        | some k =>
          match stepKey ctx now sa k with
          | none => none
          | some (s3, o3, q3) => some (s3, o1 ++ o2 ++ o3, q3)) = some (s2, outs, q)) :
    uiInvB s2 = true := by
  obtain ⟨sa, oa, hsa, hscr, hinva⟩ := stepAnim_spec s1 h1
  rw [hsa] at hrest
  dsimp only at hrest
  cases key? with
  | none =>
    dsimp only at hrest
    simp only [Option.some.injEq, Prod.mk.injEq] at hrest
    obtain ⟨h1, h2, h3⟩ := hrest
    subst h1
    exact hinva
  | some k =>
    dsimp only at hrest
    cases hsk : stepKey ctx now sa k with
    | none => rw [hsk] at hrest; exact Option.noConfusion hrest
    | some r =>
      obtain ⟨s3, o3, q3⟩ := r
      rw [hsk] at hrest
      simp only [Option.some.injEq, Prod.mk.injEq] at hrest
      obtain ⟨h1, h2, h3⟩ := hrest
      subst h1
      exact stepKey_inv ctx now sa k s3 o3 q3 hinva hsk

/-- `uiStepCore` preserves the UI invariant. -/
theorem uiStepCore_inv (ctx : UiCtx) (now : Nat) (s : AppUiState)
    (cmd? : Option CallScreenCommand) (key? : Option KeyCode)
    (s2 : AppUiState) (outs : List UiOutput) (q : Bool)
    (h : uiInvB s = true)
    (hstep : uiStepCore ctx now s cmd? key? = some (s2, outs, q)) :
    uiInvB s2 = true := by
  cases cmd? with
  | none =>
    simp only [uiStepCore] at hstep
    rw [if_neg (by decide : ¬(false = true))] at hstep
    exact uiStepTail_inv ctx now key? s [] s2 outs q h hstep
  | some c =>
    rcases hsc : stepCmd ctx now s c with ⟨sc, oc, qc⟩
    have hinvc : uiInvB sc = true := by
      have hh := stepCmd_inv ctx now s c h
      rw [hsc] at hh
      exact hh
    cases qc with
    | true =>
      simp only [uiStepCore, hsc, if_true] at hstep
      simp only [Option.some.injEq, Prod.mk.injEq] at hstep
      obtain ⟨h1, h2, h3⟩ := hstep
      subst h1
      exact hinvc
    | false =>
      simp only [uiStepCore, hsc] at hstep
      rw [if_neg (by decide : ¬(false = true))] at hstep
      exact uiStepTail_inv ctx now key? sc oc s2 outs q hinvc hstep

/-- `uiStep` preserves the UI invariant. -/
theorem uiStep_inv (ctx : UiCtx) (now : Nat) (s : AppUiState)
    (cmd? : Option CallScreenCommand) (key? : Option KeyCode)
    (s2 : AppUiState) (outs : List UiOutput) (q : Bool)
    (h : uiInvB s = true)
    (hstep : uiStep ctx now s cmd? key? = some (s2, outs, q)) :
    uiInvB s2 = true := by
  cases hscr : s.screen_state <;> simp only [uiStep, hscr] at hstep
  case contacts cc => exact Option.noConfusion hstep
  all_goals exact uiStepCore_inv ctx now s cmd? key? s2 outs q h hstep

/-- `uiLoopStep` preserves the UI invariant. -/
theorem uiLoopStep_inv (ctx : UiCtx) (sys : UiSys) (i : UiInput) (sys2 : UiSys)
    (h : uiInvB sys.app = true) (hstep : uiLoopStep ctx sys i = some sys2) :
    uiInvB sys2.app = true := by
  simp only [uiLoopStep] at hstep
  split at hstep
  · simp only [Option.some.injEq] at hstep
    subst hstep
    exact h
  · cases hui : uiStep ctx i.now sys.app i.cmd i.key with
    | none => rw [hui] at hstep; exact Option.noConfusion hstep
    | some r =>
      obtain ⟨s2, o, q⟩ := r
      rw [hui] at hstep
      simp only [Option.some.injEq] at hstep
      subst hstep
      exact uiStep_inv ctx i.now sys.app i.cmd i.key s2 o q h hui

/-- `uiRunFrom` preserves the UI invariant. -/
theorem uiRunFrom_inv (ctx : UiCtx) (inputs : List UiInput) :
    ∀ (s0 sys : UiSys), uiInvB s0.app = true →
      uiRunFrom ctx s0 inputs = some sys → uiInvB sys.app = true := by
  induction inputs with
  | nil =>
    intro s0 sys h0 h
    simp only [uiRunFrom, Option.some.injEq] at h
    subst h
    exact h0
  | cons i is ih =>
    intro s0 sys h0 h
    simp only [uiRunFrom] at h
    cases hstep : uiLoopStep ctx s0 i with
    | none => rw [hstep] at h; exact Option.noConfusion h
    | some s1 =>
      rw [hstep] at h
      exact ih s1 sys (uiLoopStep_inv ctx s0 i s1 h0 hstep) h

/-- Every state reachable by the UI task satisfies the invariant. -/
theorem uiRun_inv (ctx : UiCtx) (inputs : List UiInput) (sys : UiSys)
    (h : uiRun ctx inputs = some sys) : uiInvB sys.app = true := by
  exact uiRunFrom_inv ctx inputs ⟨AppUiState.new, false⟩ sys (by decide) h

/-- Clamp an integer into `[lo, hi]`. -/
def clamp (x lo hi : Int) : Int :=
  min (max x lo) hi

/-- On state `s`, one UI iteration with the given command and key
succeeds without quitting into a call screen whose volume is `v`, and
sends `SetVolume v` to Playback. -/
def StepSetsVolume (ctx : UiCtx) (now : Nat) (s : AppUiState)
    (cmd? : Option CallScreenCommand) (key? : Option KeyCode) (v : Int) : Prop :=
  ∃ s2 outs q, uiStep ctx now s cmd? key? = some (s2, outs, q)
    ∧ (∃ cs2, s2.screen_state = .call cs2 ∧ cs2.volume = v)
    ∧ UiOutput.toPlayback (.setVolume v) ∈ outs

/-- On an invariant-satisfying call-screen state, each of the four
volume inputs clamps the volume and emits `SetVolume`. -/
theorem volumeStep_spec (ctx : UiCtx) (now : Nat) (s : AppUiState) (cs : CallScreenState)
    (hinv : uiInvB s = true) (hscr : s.screen_state = .call cs) :
    StepSetsVolume ctx now s (some .increaseVolume) none (clamp (cs.volume + 5) 0 100)
    ∧ StepSetsVolume ctx now s (some .decreaseVolume) none (clamp (cs.volume - 5) 0 100)
    ∧ StepSetsVolume ctx now s none (some (.char 'd')) (clamp (cs.volume + 5) 0 100)
    ∧ StepSetsVolume ctx now s none (some (.char 'a')) (clamp (cs.volume - 5) 0 100) := by
  have hv : 0 ≤ cs.volume ∧ cs.volume ≤ 100 := by
    simp only [uiInvB, volumeOK, hscr, Bool.and_eq_true, decide_eq_true_eq] at hinv
    exact hinv.1
  have hcapUp : clamp (cs.volume + 5) 0 100 = min (cs.volume + 5) 100 := by
    unfold clamp
    rw [max_eq_left (by omega)]
  have hcapDown : clamp (cs.volume - 5) 0 100 = max (cs.volume - 5) 0 := by
    unfold clamp
    rw [min_eq_left (max_le (by omega) (by omega))]
  have hguard : ∀ (cmd? : Option CallScreenCommand) (key? : Option KeyCode),
      uiStep ctx now s cmd? key? = uiStepCore ctx now s cmd? key? := by
    intro cmd? key?
    simp [uiStep, hscr]
  refine ⟨?_, ?_, ?_, ?_⟩
  · have hcmd : stepCmd ctx now s .increaseVolume =
        ({ s with screen_state := .call { cs with volume := min (cs.volume + 5) 100 } },
         [.toPlayback (.setVolume (min (cs.volume + 5) 100))], false) := by
      simp [stepCmd, hscr]
    have hinvc : uiInvB
        ({ s with screen_state := .call { cs with volume := min (cs.volume + 5) 100 } }) = true := by
      have hh := stepCmd_inv ctx now s .increaseVolume hinv
      rw [hcmd] at hh
      exact hh
    obtain ⟨sa, oa, hsa, hsascr, hinva⟩ := stepAnim_spec _ hinvc
    refine ⟨sa, [.toPlayback (.setVolume (min (cs.volume + 5) 100))] ++ oa, false, ?_, ?_, ?_⟩
    · rw [hguard]
      exact uiStepCore_cmd ctx now s _ _ _ sa oa hcmd hsa
    · exact ⟨{ cs with volume := min (cs.volume + 5) 100 }, hsascr, by rw [hcapUp]⟩
    · rw [hcapUp]
      simp
  · have hcmd : stepCmd ctx now s .decreaseVolume =
        ({ s with screen_state := .call { cs with volume := max (cs.volume - 5) 0 } },
         [.toPlayback (.setVolume (max (cs.volume - 5) 0))], false) := by
      simp [stepCmd, hscr]
    have hinvc : uiInvB
        ({ s with screen_state := .call { cs with volume := max (cs.volume - 5) 0 } }) = true := by
      have hh := stepCmd_inv ctx now s .decreaseVolume hinv
      rw [hcmd] at hh
      exact hh
    obtain ⟨sa, oa, hsa, hsascr, hinva⟩ := stepAnim_spec _ hinvc
    refine ⟨sa, [.toPlayback (.setVolume (max (cs.volume - 5) 0))] ++ oa, false, ?_, ?_, ?_⟩
    · rw [hguard]
      exact uiStepCore_cmd ctx now s _ _ _ sa oa hcmd hsa
    · exact ⟨{ cs with volume := max (cs.volume - 5) 0 }, hsascr, by rw [hcapDown]⟩
    · rw [hcapDown]
      simp
  · obtain ⟨sa, oa, hsa, hsascr, hinva⟩ := stepAnim_spec s hinv
    have hsascr2 : sa.screen_state = .call cs := by rw [hsascr, hscr]
    have hkey : stepKey ctx now sa (.char 'd') =
        some ({ sa with screen_state := .call { cs with volume := min (cs.volume + 5) 100 } },
          [.toPlayback (.setVolume (min (cs.volume + 5) 100))], false) := by
      simp [stepKey, hsascr2]
    refine ⟨{ sa with screen_state := .call { cs with volume := min (cs.volume + 5) 100 } },
      oa ++ [.toPlayback (.setVolume (min (cs.volume + 5) 100))], false, ?_, ?_, ?_⟩
    · rw [hguard]
      exact uiStepCore_key ctx now s _ sa oa _ _ _ hsa hkey
    · exact ⟨{ cs with volume := min (cs.volume + 5) 100 }, rfl, by rw [hcapUp]⟩
    · rw [hcapUp]
      simp
  · obtain ⟨sa, oa, hsa, hsascr, hinva⟩ := stepAnim_spec s hinv
    have hsascr2 : sa.screen_state = .call cs := by rw [hsascr, hscr]
    have hkey : stepKey ctx now sa (.char 'a') =
        some ({ sa with screen_state := .call { cs with volume := max (cs.volume - 5) 0 } },
          [.toPlayback (.setVolume (max (cs.volume - 5) 0))], false) := by
      simp [stepKey, hsascr2]
    refine ⟨{ sa with screen_state := .call { cs with volume := max (cs.volume - 5) 0 } },
      oa ++ [.toPlayback (.setVolume (max (cs.volume - 5) 0))], false, ?_, ?_, ?_⟩
    · rw [hguard]
      exact uiStepCore_key ctx now s _ sa oa _ _ _ hsa hkey
    · exact ⟨{ cs with volume := max (cs.volume - 5) 0 }, rfl, by rw [hcapDown]⟩
    · rw [hcapDown]
      simp

/-- **C7.** For every input sequence applied to the UI task, the
call-screen volume remains in `[0, 100]` (mutedness is a `Bool` by the
type of `CallScreenState.is_muted`); and on every reachable state that
shows a call screen, `IncreaseVolume`/`DecreaseVolume` commands and the
keypresses `d`/`a` set the volume to `clamp(volume ± 5, 0, 100)` and
send `SetVolume` with that value to Playback. -/
theorem c7_volume_clamped (ctx : UiCtx) (inputs : List UiInput) (sys : UiSys)
    (h : uiRun ctx inputs = some sys) :
    volumeOK sys.app = true
    ∧ ∀ cs now, sys.app.screen_state = .call cs →
        StepSetsVolume ctx now sys.app (some .increaseVolume) none
          (clamp (cs.volume + 5) 0 100)
        ∧ StepSetsVolume ctx now sys.app (some .decreaseVolume) none
            (clamp (cs.volume - 5) 0 100)
        ∧ StepSetsVolume ctx now sys.app none (some (.char 'd'))
            (clamp (cs.volume + 5) 0 100)
        ∧ StepSetsVolume ctx now sys.app none (some (.char 'a'))
            (clamp (cs.volume - 5) 0 100) := by
  have hinv := uiRun_inv ctx inputs sys h
  refine ⟨?_, ?_⟩
  · simp only [uiInvB, Bool.and_eq_true] at hinv
    exact hinv.1
  · intro cs now hscr
    exact volumeStep_spec ctx now sys.app cs hinv hscr

/-- A concrete context for witnesses: the IP parser rejects everything
and the decoded ringtone is empty. -/
def uiCtx0 : UiCtx :=
  ⟨fun _ => none, []⟩

/-- A one-step input trace: an `IncomingCall` command arrives. -/
def c7Inputs : List UiInput :=
  [⟨some (.incomingCall ⟨5, 33445⟩), none, 0⟩]

/-- The state reached by `c7Inputs`: an incoming-call screen at
volume 100, animation phase 1. -/
def c7Sys : UiSys :=
  ⟨⟨.call ⟨false, 100, 5, none, .incomingCall⟩, 1⟩, false⟩

/-- Witness for `c7_volume_clamped` at a concrete run reaching a call
screen. -/
theorem c7_volume_clamped_witness :
    volumeOK c7Sys.app = true
    ∧ ∀ cs now, c7Sys.app.screen_state = .call cs →
        StepSetsVolume uiCtx0 now c7Sys.app (some .increaseVolume) none
          (clamp (cs.volume + 5) 0 100)
        ∧ StepSetsVolume uiCtx0 now c7Sys.app (some .decreaseVolume) none
            (clamp (cs.volume - 5) 0 100)
        ∧ StepSetsVolume uiCtx0 now c7Sys.app none (some (.char 'd'))
            (clamp (cs.volume + 5) 0 100)
        ∧ StepSetsVolume uiCtx0 now c7Sys.app none (some (.char 'a'))
            (clamp (cs.volume - 5) 0 100) :=
  c7_volume_clamped uiCtx0 c7Inputs c7Sys (by decide)

/-- **C10.** In every reachable state of the UI task the animation
phase is in 0..4 — it starts at 0, `stop_animation` resets it to 0, and
every defined arm of `animation` keeps it below 5 — so `animation`
never reaches its `unreachable` arm (`isSome` holds at every reachable
phase). -/
theorem c10_animation_phase_safe (ctx : UiCtx) (inputs : List UiInput) (sys : UiSys)
    (h : uiRun ctx inputs = some sys) :
    AppUiState.new.animation_state = 0
    ∧ sys.app.animation_state < 5
    ∧ (animation sys.app.animation_state).isSome = true
    ∧ stop_animation.1 = 0
    ∧ ∀ p p2 ws, animation p = some (p2, ws) → p2 < 5 := by
  have hinv := uiRun_inv ctx inputs sys h
  simp only [uiInvB, Bool.and_eq_true, decide_eq_true_eq] at hinv
  refine ⟨rfl, hinv.2, ?_, rfl, animation_phase_lt⟩
  obtain ⟨p2, ws, hh⟩ := animation_isSome_of_lt _ hinv.2
  rw [hh]
  rfl

/-- The initial UI loop state, reached by the empty input trace. -/
def c10Sys : UiSys :=
  ⟨AppUiState.new, false⟩

/-- Witness for `c10_animation_phase_safe` at a concrete run. -/
theorem c10_animation_phase_witness :
    AppUiState.new.animation_state = 0
    ∧ c10Sys.app.animation_state < 5
    ∧ (animation c10Sys.app.animation_state).isSome = true
    ∧ stop_animation.1 = 0
    ∧ ∀ p p2 ws, animation p = some (p2, ws) → p2 < 5 :=
  c10_animation_phase_safe uiCtx0 [] c10Sys (by decide)
